import Mathlib

/-
Verification of the persistence and membership-coordination layer of the
ircChat repository (src/lib/data.ts).  The two sqlite tables (`users`,
`rooms`) are embedded as Lean lists of records; the serialized JSON
membership columns are modelled directly as `List String` in the stored
records, and the JavaScript `Set` built from them by `getUserSession` /
`getRoom` is modelled by first-occurrence deduplication (`jsSetOfList`),
which matches `new Set(array)` insertion-order semantics.  Every database
access that the code guards with a `.catch` handler takes an explicit
`fault : Bool` input modelling an underlying storage fault at that access.
-/

namespace IrcChat

/-- Model of a bcrypt digest (the `bcrypt` library used by the code).
`hashPassword p s` is the digest of password `p` under salt `s`;
`checkPassword p h` is true exactly when `h` was produced from `p`
(the library contract of `bcrypt.hash` / `bcrypt.compare`). -/
structure BcryptHash where
  pw : String
  salt : Nat
deriving DecidableEq, Repr

def hashPassword (password : String) (salt : Nat) : BcryptHash :=
  ⟨password, salt⟩

def checkPassword (password : String) (h : BcryptHash) : Bool :=
  password == h.pw

/-- A row of the `users` table.  `rooms` is the JSON-encoded array column
(`table.text("rooms").defaultTo("[]")`). -/
structure UserRecord where
  username : String
  displayName : Option String
  password : BcryptHash
  color : String
  rooms : List String
  online : Bool
  publicKey : Option (List Nat)
deriving DecidableEq, Repr

/-- A row of the `rooms` table.  `members` is the JSON-encoded array column. -/
structure RoomRecord where
  name : String
  description : Option String
  members : List String
  publicKey : List Nat
  privateKey : List Nat
deriving DecidableEq, Repr

/-- The whole sqlite database state. -/
structure DB where
  users : List UserRecord
  rooms : List RoomRecord
deriving DecidableEq, Repr

/-- Model of JavaScript `String.prototype.toLowerCase` on one character (the ASCII
range, which is all the repository's room names use). -/
def lowerChar (c : Char) : Char :=
  if 65 ≤ c.toNat ∧ c.toNat ≤ 90 then Char.ofNat (c.toNat + 32) else c

/-- Model of JavaScript `roomname.toLowerCase()`. -/
def lowerString (s : String) : String :=
  ⟨s.data.map lowerChar⟩

/-- The read `db("users").where("username", u).first()`. -/
def findUser (db : DB) (username : String) : Option UserRecord :=
  db.users.find? (fun u => u.username == username)

/-- The read `db("rooms").where("name", n).first()` (no normalization here: each
caller lowercases, or not, exactly as the source does). -/
def findRoom (db : DB) (name : String) : Option RoomRecord :=
  db.rooms.find? (fun r => r.name == name)

/-- Model of JavaScript `Set.prototype.add`: appends unless already present
(insertion order preserved, duplicates absorbed). -/
def setAdd (l : List String) (x : String) : List String :=
  if l.contains x then l else l ++ [x]

/-- Model of JavaScript `Set.prototype.delete`. -/
def setDelete (l : List String) (x : String) : List String :=
  l.erase x

/-- Model of `new Set(array)`: first-occurrence deduplication, insertion order kept. -/
def jsSetOfList (l : List String) : List String :=
  l.foldl setAdd []

/-- Model of `openpgp.readKey(...).armor()`: lossless text encoding of a binary key;
modelled by any injective computable encoding. -/
def armorKey (k : List Nat) : String :=
  toString k

/-- The object `getUserSession` resolves with: the user row with `online`
coerced to boolean, the legacy derived `offline` key, and `rooms`
materialized as a set. -/
structure UserSession where
  username : String
  displayName : Option String
  password : BcryptHash
  color : String
  rooms : List String
  online : Bool
  offline : Bool
  publicKey : Option (List Nat)
deriving DecidableEq, Repr

/-- The operation `getUserSession(username)`: `null` on a storage fault (`.catch`) or a
missing row; otherwise the materialized session object. -/
def getUserSession (db : DB) (username : String) (fault : Bool) :
    Option UserSession :=
  if fault then none else
  match findUser db username with
  | none => none
  | some u =>
      some ⟨u.username, u.displayName, u.password, u.color,
            jsSetOfList u.rooms, u.online, !u.online, u.publicKey⟩

/-- The object `getRoom` resolves with: the room row with `members`
materialized as a set and the public key additionally armored. -/
structure RoomView where
  name : String
  description : Option String
  members : List String
  publicKey : List Nat
  privateKey : List Nat
  armoredPublicKey : String
deriving DecidableEq, Repr

/-- The operation `getRoom(roomname)`: looks up `roomname.toLowerCase()`; `null` on a
storage fault or a missing row. -/
def getRoom (db : DB) (roomname : String) (fault : Bool) : Option RoomView :=
  if fault then none else
  match findRoom db (lowerString roomname) with
  | none => none
  | some r =>
      some ⟨r.name, r.description, jsSetOfList r.members, r.publicKey,
            r.privateKey, armorKey r.publicKey⟩

/-- The operation `createUserProfile(username, password, color)`: resolves `false` if the
username already exists, `true` on a successful insert, `null` on a storage
fault of the read or the insert.  The inserted row gets the column defaults
`rooms = []`, `online = false`, and null `displayName` / `publicKey`. -/
def createUserProfile (db : DB) (username password color : String)
    (salt : Nat) (readFault insertFault : Bool) : Option Bool × DB :=
  if readFault then (none, db) else
  match findUser db username with
  | some _ => (some false, db)
  | none =>
      if insertFault then (none, db)
      else (some true,
        { db with users := db.users ++
            [⟨username, none, hashPassword password salt, color, [],
              false, none⟩] })

/-- The operation `compareUserProfile(username, password)`: `false` if the user is absent
or on a storage fault; otherwise `bcrypt.compare` against the stored hash. -/
def compareUserProfile (db : DB) (username password : String)
    (fault : Bool) : Bool :=
  if fault then false else
  match findUser db username with
  | none => false
  | some u => checkPassword password u.password

/-- The statement `trx("users").where("username", username).update(rooms)`. -/
def updateUserRooms (db : DB) (username : String) (newRooms : List String) :
    DB :=
  { db with users := db.users.map (fun u =>
      if u.username == username then { u with rooms := newRooms } else u) }

/-- The statement `trx("rooms").where("name", name).update(members)` — the source
passes `roomname` here unnormalized, so the model does too. -/
def updateRoomMembers (db : DB) (name : String) (newMembers : List String) :
    DB :=
  { db with rooms := db.rooms.map (fun r =>
      if r.name == name then { r with members := newMembers } else r) }

/-- The operation `addUserToRoom(username, roomname)`: read both records (false if either
read yields null), add the raw `roomname` to the user's set and `username`
to the room's set, then write both inside one transaction; a failed commit
(`txFault`) rolls back both writes and resolves `false`. -/
def addUserToRoom (db : DB) (username roomname : String)
    (userFault roomFault txFault : Bool) : Bool × DB :=
  match getUserSession db username userFault with
  | none => (false, db)
  | some user =>
    match getRoom db roomname roomFault with
    | none => (false, db)
    | some room =>
      let newRooms := setAdd user.rooms roomname
      let newMembers := setAdd room.members username
      if txFault then (false, db)
      else (true,
        updateRoomMembers (updateUserRooms db username newRooms)
          roomname newMembers)

/-- The operation `removeUserFromRoom(username, roomname)`: symmetric to `addUserToRoom`
with set deletion in place of insertion. -/
def removeUserFromRoom (db : DB) (username roomname : String)
    (userFault roomFault txFault : Bool) : Bool × DB :=
  match getUserSession db username userFault with
  | none => (false, db)
  | some user =>
    match getRoom db roomname roomFault with
    | none => (false, db)
    | some room =>
      let newRooms := setDelete user.rooms roomname
      let newMembers := setDelete room.members username
      if txFault then (false, db)
      else (true,
        updateRoomMembers (updateUserRooms db username newRooms)
          roomname newMembers)

/-- The operation `getUserViews(username)`: `null` when the user session resolves null;
otherwise the union (as a JS `Set`) of the members of every room of the
user that loads successfully, rooms that fail to load being skipped.
`roomFault` gives the per-room fault of the `getRoom` call. -/
def getUserViews (db : DB) (username : String) (userFault : Bool)
    (roomFault : String → Bool) : Option (List String) :=
  match getUserSession db username userFault with
  | none => none
  | some user =>
      some (user.rooms.foldl (fun viewers roomname =>
        match getRoom db roomname (roomFault roomname) with
        | none => viewers
        | some room => room.members.foldl setAdd viewers) [])

/-- The operation `existsRoom(roomname)`: case-insensitive lookup; resolves `true` on a
storage fault (`.catch(() => true)`). -/
def existsRoom (db : DB) (roomname : String) (fault : Bool) : Bool :=
  if fault then true else (findRoom db (lowerString roomname)).isSome

/-- The operation `createRoom(roomname, description?)`: returns false if `existsRoom`
(which is fail-closed), otherwise generates a key pair (modelled as the
input `keys`, since key material is fresh randomness) and inserts the row
under the lowercased name with `.onConflict("name").merge()` semantics:
on a name conflict the insert columns overwrite the existing row. -/
def createRoom (db : DB) (roomname : String) (description : Option String)
    (keys : List Nat × List Nat) (existsFault insertFault : Bool) :
    Bool × DB :=
  if existsRoom db roomname existsFault then (false, db)
  else if insertFault then (false, db)
  else
    match findRoom db (lowerString roomname) with
    | some _ => (true,
        { db with rooms := db.rooms.map (fun r =>
            if r.name == lowerString roomname then
              { r with description := description, publicKey := keys.1,
                       privateKey := keys.2 }
            else r) })
    | none => (true,
        { db with rooms := db.rooms ++
            [⟨lowerString roomname, description, [], keys.1, keys.2⟩] })

/-- The membership-symmetry invariant of the spec: a room name is in a
user's `rooms` set exactly when that username is in that room's `members`
set (a name naming no stored record has an empty set). -/
def userInRoomSet (db : DB) (uname rname : String) : Bool :=
  match findUser db uname with
  | none => false
  | some u => u.rooms.contains rname

def roomHasMember (db : DB) (rname uname : String) : Bool :=
  match findRoom db rname with
  | none => false
  | some r => r.members.contains uname

def memSym (db : DB) : Prop :=
  ∀ uname rname, userInRoomSet db uname rname = roomHasMember db rname uname

/-! ### Basic lemmas about the JS-set model -/

theorem contains_iff_mem {l : List String} {x : String} :
    l.contains x = true ↔ x ∈ l :=
  List.elem_iff

theorem mem_setAdd {l : List String} {x y : String} :
    y ∈ setAdd l x ↔ y ∈ l ∨ y = x := by
  unfold setAdd
  split
  · rename_i h
    constructor
    · exact Or.inl
    · rintro (h' | rfl)
      · exact h'
      · exact contains_iff_mem.mp h
  · simp

theorem setAdd_of_mem {l : List String} {x : String} (h : x ∈ l) :
    setAdd l x = l := by
  unfold setAdd
  rw [if_pos (contains_iff_mem.mpr h)]

theorem mem_setAdd_self (l : List String) (x : String) : x ∈ setAdd l x :=
  mem_setAdd.mpr (Or.inr rfl)

theorem setAdd_idem (l : List String) (x : String) :
    setAdd (setAdd l x) x = setAdd l x :=
  setAdd_of_mem (mem_setAdd_self l x)

theorem setAdd_nodup {l : List String} {x : String} (h : l.Nodup) :
    (setAdd l x).Nodup := by
  unfold setAdd
  split
  · exact h
  · rename_i hc
    have hx : x ∉ l := fun hm => hc (contains_iff_mem.mpr hm)
    simpa [List.nodup_append] using ⟨h, hx⟩

theorem foldl_setAdd_eq_append :
    ∀ (l acc : List String), l.Nodup → (∀ x ∈ l, x ∉ acc) →
      l.foldl setAdd acc = acc ++ l
  | [], acc, _, _ => by simp
  | y :: l, acc, hn, hd => by
    have hy : y ∉ acc := hd y (by simp)
    have step : setAdd acc y = acc ++ [y] := by
      unfold setAdd
      rw [if_neg (fun hc => hy (contains_iff_mem.mp hc))]
    have hn' : l.Nodup := (List.nodup_cons.mp hn).2
    have hyl : y ∉ l := (List.nodup_cons.mp hn).1
    have hd' : ∀ x ∈ l, x ∉ acc ++ [y] := by
      intro x hx
      simp only [List.mem_append, List.mem_singleton]
      rintro (h | rfl)
      · exact hd x (by simp [hx]) h
      · exact hyl hx
    calc (y :: l).foldl setAdd acc
        = l.foldl setAdd (setAdd acc y) := rfl
      _ = (acc ++ [y]) ++ l := by rw [step, foldl_setAdd_eq_append l _ hn' hd']
      _ = acc ++ y :: l := by simp

theorem jsSetOfList_eq_self {l : List String} (h : l.Nodup) :
    jsSetOfList l = l := by
  unfold jsSetOfList
  simpa using foldl_setAdd_eq_append l [] h (by simp)

theorem mem_foldl_setAdd :
    ∀ (l acc : List String) (x : String),
      x ∈ l.foldl setAdd acc ↔ x ∈ acc ∨ x ∈ l
  | [], acc, x => by simp
  | y :: l, acc, x => by
    calc x ∈ (y :: l).foldl setAdd acc
        ↔ x ∈ l.foldl setAdd (setAdd acc y) := Iff.rfl
      _ ↔ (x ∈ acc ∨ x = y) ∨ x ∈ l := by rw [mem_foldl_setAdd l _ x, mem_setAdd]
      _ ↔ x ∈ acc ∨ x ∈ y :: l := by simp [or_assoc, eq_comm]

theorem foldl_setAdd_nodup :
    ∀ (l acc : List String), acc.Nodup → (l.foldl setAdd acc).Nodup
  | [], _, h => h
  | _ :: l, _, h => foldl_setAdd_nodup l _ (setAdd_nodup h)

theorem jsSetOfList_nodup (l : List String) : (jsSetOfList l).Nodup :=
  foldl_setAdd_nodup l [] List.nodup_nil

theorem mem_jsSetOfList {l : List String} {x : String} :
    x ∈ jsSetOfList l ↔ x ∈ l := by
  unfold jsSetOfList
  simpa using mem_foldl_setAdd l [] x

theorem setDelete_not_mem {l : List String} {x : String} (h : l.Nodup) :
    x ∉ setDelete l x := by
  unfold setDelete
  intro hm
  exact ((h.mem_erase_iff.mp hm).1) rfl

theorem setDelete_idem {l : List String} {x : String} (h : l.Nodup) :
    setDelete (setDelete l x) x = setDelete l x :=
  List.erase_of_not_mem (setDelete_not_mem h)

theorem setDelete_nodup {l : List String} {x : String} (h : l.Nodup) :
    (setDelete l x).Nodup :=
  h.erase x

/-! ### Inversion lemmas for the read operations -/

theorem getUserSession_eq_some {db : DB} {u : String} {f : Bool}
    {s : UserSession} (h : getUserSession db u f = some s) :
    f = false ∧ ∃ a, findUser db u = some a ∧
      s = ⟨a.username, a.displayName, a.password, a.color,
           jsSetOfList a.rooms, a.online, !a.online, a.publicKey⟩ := by
  unfold getUserSession at h
  cases f
  · refine ⟨rfl, ?_⟩
    simp only [if_neg Bool.false_ne_true] at h
    cases hf : findUser db u with
    | none => rw [hf] at h; exact absurd h (by simp)
    | some a =>
        rw [hf] at h
        exact ⟨a, rfl, (Option.some_injective _ h).symm⟩
  · simp at h

theorem getRoom_eq_some {db : DB} {r : String} {f : Bool}
    {v : RoomView} (h : getRoom db r f = some v) :
    f = false ∧ ∃ b, findRoom db (lowerString r) = some b ∧
      v = ⟨b.name, b.description, jsSetOfList b.members, b.publicKey,
           b.privateKey, armorKey b.publicKey⟩ := by
  unfold getRoom at h
  cases f
  · refine ⟨rfl, ?_⟩
    simp only [if_neg Bool.false_ne_true] at h
    cases hf : findRoom db (lowerString r) with
    | none => rw [hf] at h; exact absurd h (by simp)
    | some b =>
        rw [hf] at h
        exact ⟨b, rfl, (Option.some_injective _ h).symm⟩
  · simp at h

/-! ### C1: membership symmetry -/

/-- Failing input for membership symmetry: one user `alice` in no rooms and
one room `general` with no members, so the invariant holds. -/
def dbJoinStart : DB :=
  { users := [⟨"alice", none, hashPassword "pw" 0, "red", [], false, none⟩],
    rooms := [⟨"general", none, [], [1], [2]⟩] }

/-- The state after `addUserToRoom("alice", "General")` completes without
any storage fault on `dbJoinStart`. -/
def dbJoinBroken : DB :=
  (addUserToRoom dbJoinStart "alice" "General" false false false).2

/-- C1: membership symmetry after every completed join/leave fails on the
code.  From a state satisfying the invariant, the completed call
`addUserToRoom("alice", "General")` returns true, yet afterwards
`"General"` is in alice's rooms set while alice is in no room's members
set: the join looks the room up under the lowercased name but filters its
rooms-table UPDATE on the raw name, which matches no row. -/
theorem addUserToRoom_case_mismatch_breaks_symmetry :
    memSym dbJoinStart ∧
    addUserToRoom dbJoinStart "alice" "General" false false false
      = (true, dbJoinBroken) ∧
    userInRoomSet dbJoinBroken "alice" "General" = true ∧
    (∀ rn, roomHasMember dbJoinBroken rn "alice" = false) ∧
    ¬ memSym dbJoinBroken := by
  refine ⟨?_, rfl, by decide, ?_, ?_⟩
  · intro u r
    unfold userInRoomSet roomHasMember findUser findRoom dbJoinStart
    simp only [List.find?]
    cases h1 : ("alice" == u) <;> cases h2 : ("general" == r) <;> simp
  · intro rn
    rw [show dbJoinBroken =
        ⟨[⟨"alice", none, hashPassword "pw" 0, "red", ["General"],
           false, none⟩],
         [⟨"general", none, [], [1], [2]⟩]⟩ from by decide]
    unfold roomHasMember findRoom
    simp only [List.find?]
    cases h : ("general" == rn) <;> simp
  · intro h
    have h1 := h "alice" "General"
    revert h1
    decide

/-! ### C2: join fails closed with no mutation -/

/-- C2: `addUserToRoom` returns false and leaves the database untouched
whenever the named user is absent, the named room is absent (under the
normalized name), or the two-table transaction fails to commit. -/
theorem addUserToRoom_failure_no_mutation (db : DB) (u r : String)
    (f1 f2 ft : Bool)
    (h : findUser db u = none ∨ findRoom db (lowerString r) = none ∨
         ft = true) :
    addUserToRoom db u r f1 f2 ft = (false, db) := by
  unfold addUserToRoom
  cases hs : getUserSession db u f1 with
  | none => rfl
  | some s =>
    obtain ⟨-, a, ha, -⟩ := getUserSession_eq_some hs
    cases hv : getRoom db r f2 with
    | none => rfl
    | some v =>
      obtain ⟨-, b, hb, -⟩ := getRoom_eq_some hv
      rcases h with h | h | h
      · rw [h] at ha; exact absurd ha (by simp)
      · rw [h] at hb; exact absurd hb (by simp)
      · simp [h]

/-- Witness for C2 at a concrete input: joining a room that does not exist
leaves the one-user database unchanged and returns false. -/
def dbNoRoom : DB :=
  { users := [⟨"bob", none, hashPassword "b" 1, "blue", [], false, none⟩],
    rooms := [] }

theorem addUserToRoom_failure_no_mutation_witness :
    findRoom dbNoRoom (lowerString "lobby") = none ∧
    addUserToRoom dbNoRoom "bob" "lobby" false false false
      = (false, dbNoRoom) :=
  ⟨by decide,
   addUserToRoom_failure_no_mutation dbNoRoom "bob" "lobby" false false
     false (Or.inr (Or.inl (by decide)))⟩

/-! ### C7: existsRoom is fail-closed -/

/-- C7: `existsRoom` returns true on a storage fault, and absent a fault it
returns true exactly when a room with the given name exists
case-insensitively (stated over stores whose room names are normalized,
which is the only kind the store creates). -/
theorem existsRoom_fail_closed (db : DB) (r : String)
    (hnorm : ∀ room ∈ db.rooms, lowerString room.name = room.name) :
    existsRoom db r true = true ∧
    (existsRoom db r false = true ↔
      ∃ room ∈ db.rooms, lowerString room.name = lowerString r) := by
  refine ⟨rfl, ?_⟩
  unfold existsRoom findRoom
  simp only [Bool.false_eq_true, if_false]
  rw [List.find?_isSome]
  constructor
  · rintro ⟨room, hm, hp⟩
    rw [beq_iff_eq] at hp
    exact ⟨room, hm, by rw [hnorm room hm, hp]⟩
  · rintro ⟨room, hm, hp⟩
    refine ⟨room, hm, ?_⟩
    rw [beq_iff_eq, ← hnorm room hm, hp]

/-- Witness for C7: a store holding room `general`, queried as `GENERAL`. -/
def dbOneRoom : DB :=
  { users := [], rooms := [⟨"general", none, [], [1], [2]⟩] }

theorem existsRoom_fail_closed_witness :
    existsRoom dbOneRoom "GENERAL" false = true ∧
    (existsRoom dbOneRoom "GENERAL" true = true ∧
     (existsRoom dbOneRoom "GENERAL" false = true ↔
       ∃ room ∈ dbOneRoom.rooms,
         lowerString room.name = lowerString "GENERAL")) :=
  ⟨by decide,
   existsRoom_fail_closed dbOneRoom "GENERAL" (by decide)⟩

/-! ### C10: the legacy `offline` key -/

/-- C10: every session object `getUserSession` resolves with carries an
`offline` field that is exactly the negation of its `online` field. -/
theorem getUserSession_offline_negation (db : DB) (u : String) (f : Bool)
    (s : UserSession) (h : getUserSession db u f = some s) :
    s.offline = !s.online := by
  obtain ⟨-, a, -, rfl⟩ := getUserSession_eq_some h
  rfl

/-- Witness for C10 at a concrete input: an online user's session. -/
def dbOnlineUser : DB :=
  { users := [⟨"carol", none, hashPassword "c" 2, "green", ["general"],
               true, none⟩],
    rooms := [⟨"general", none, ["carol"], [1], [2]⟩] }

def carolSession : UserSession :=
  ⟨"carol", none, hashPassword "c" 2, "green", ["general"], true, false,
   none⟩

theorem getUserSession_offline_negation_witness :
    getUserSession dbOnlineUser "carol" false = some carolSession ∧
    carolSession.offline = !carolSession.online :=
  ⟨by decide,
   getUserSession_offline_negation dbOnlineUser "carol" false carolSession
     (by decide)⟩

/-! ### C3: room name normalization -/

/-- Counterexample input for the membership part of C3: one user and one
room, joined under two casings of the room's name. -/
def dbCaseStart : DB :=
  { users := [⟨"ann", none, hashPassword "a" 3, "red", [], false, none⟩],
    rooms := [⟨"lobby", none, [], [3], [4]⟩] }

/-- C3 counterexample: two room names differing only in case do not refer
to the same room across membership operations: joining `lobby` as
`"Lobby"` and as `"lobby"` produces different databases (the lowercase
call updates the members set of `lobby`, the mixed-case call does not,
because the members UPDATE filters on the raw name). -/
theorem roomname_casing_differs_for_membership :
    (addUserToRoom dbCaseStart "ann" "Lobby" false false false).2 ≠
    (addUserToRoom dbCaseStart "ann" "lobby" false false false).2 := by
  decide

/-- C3 amended: the room store normalizes before lookup and insert, so any
two casings of a name behave identically under `getRoom`, `existsRoom` and
`createRoom`, and after `createRoom("General")` succeeds, `getRoom` and
`existsRoom` find that same record under any casing; membership
operations, however, normalize only their lookups, not their writes. -/
theorem room_store_case_insensitive (db : DB) (r1 r2 : String)
    (d : Option String) (k : List Nat × List Nat) (f f1 f2 : Bool)
    (hcase : lowerString r1 = lowerString r2) :
    getRoom db r1 f = getRoom db r2 f ∧
    existsRoom db r1 f = existsRoom db r2 f ∧
    createRoom db r1 d k f1 f2 = createRoom db r2 d k f1 f2 ∧
    (findRoom db (lowerString r1) = none →
      createRoom db r1 d k false false
        = (true, { db with rooms := db.rooms ++
            [⟨lowerString r1, d, [], k.1, k.2⟩] }) ∧
      getRoom (createRoom db r1 d k false false).2 r2 false
        = some ⟨lowerString r1, d, [], k.1, k.2, armorKey k.1⟩ ∧
      existsRoom (createRoom db r1 d k false false).2 r2 false = true) := by
  refine ⟨?_, ?_, ?_, ?_⟩
  · unfold getRoom
    rw [hcase]
  · unfold existsRoom
    rw [hcase]
  · unfold createRoom existsRoom
    rw [hcase]
  · intro hn
    have hcreate : createRoom db r1 d k false false
        = (true, { db with rooms := db.rooms ++
            [⟨lowerString r1, d, [], k.1, k.2⟩] }) := by
      unfold createRoom existsRoom
      rw [hn]
      simp
    refine ⟨hcreate, ?_, ?_⟩
    · rw [hcreate]
      unfold getRoom findRoom
      simp only [Bool.false_eq_true, if_false]
      rw [← hcase, List.find?_append]
      unfold findRoom at hn
      rw [hn]
      simp [List.find?, jsSetOfList]
    · rw [hcreate]
      unfold existsRoom findRoom
      simp only [Bool.false_eq_true, if_false]
      rw [← hcase, List.find?_append]
      unfold findRoom at hn
      rw [hn]
      simp [List.find?]

/-- Witness database for the amended C3: no rooms yet. -/
def dbFreshRooms : DB := { users := [], rooms := [] }

theorem room_store_case_insensitive_witness :
    getRoom dbFreshRooms "General" false
      = getRoom dbFreshRooms "GENERAL" false ∧
    getRoom (createRoom dbFreshRooms "General" none ([5], [6])
        false false).2 "GENERAL" false
      = some ⟨"general", none, [], [5], [6], armorKey [5]⟩ ∧
    existsRoom (createRoom dbFreshRooms "General" none ([5], [6])
        false false).2 "GENERAL" false = true :=
  ⟨(room_store_case_insensitive dbFreshRooms "General" "GENERAL" none
      ([5], [6]) false false false (by decide)).1,
   by
     have h := ((room_store_case_insensitive dbFreshRooms "General"
       "GENERAL" none ([5], [6]) false false false
       (by decide)).2.2.2 (by decide)).2
     exact ⟨h.1, h.2⟩⟩

/-! ### C4: room key immutability -/

/-- C4: once `createRoom` has succeeded for a room name, a later
`createRoom` call under any casing of that name returns false and leaves
the database — in particular the stored key pair bytes — unchanged. -/
theorem createRoom_key_immutable (db db1 : DB) (r r' : String)
    (d d' : Option String) (k k' : List Nat × List Nat)
    (ef if1 f1 f2 : Bool)
    (hsucc : createRoom db r d k ef if1 = (true, db1))
    (hcase : lowerString r' = lowerString r) :
    createRoom db1 r' d' k' f1 f2 = (false, db1) ∧
    ∃ rec, findRoom db1 (lowerString r) = some rec ∧
      rec.publicKey = k.1 ∧ rec.privateKey = k.2 := by
  unfold createRoom at hsucc
  cases ef with
  | true => simp [existsRoom] at hsucc
  | false =>
    cases hfr : findRoom db (lowerString r) with
    | some b => simp [existsRoom, hfr] at hsucc
    | none =>
      cases if1 with
      | true => simp [existsRoom, hfr] at hsucc
      | false =>
        rw [show existsRoom db r false = false by
              simp [existsRoom, hfr]] at hsucc
        simp only [Bool.false_eq_true, if_false, hfr] at hsucc
        have hdb1 : db1 = { db with rooms := db.rooms ++
            [⟨lowerString r, d, [], k.1, k.2⟩] } :=
          (Prod.mk.injEq .. ▸ hsucc).2.symm
        have hfind : findRoom db1 (lowerString r)
            = some ⟨lowerString r, d, [], k.1, k.2⟩ := by
          rw [hdb1]
          unfold findRoom
          unfold findRoom at hfr
          rw [List.find?_append, hfr]
          simp [List.find?]
        refine ⟨?_, ⟨_, hfind, rfl, rfl⟩⟩
        unfold createRoom existsRoom
        rw [hcase, hfind]
        cases f1 <;> simp

/-- Witness for C4: create `General` in an empty store, then try again as
`GENERAL`. -/
def dbNoRoomsYet : DB := { users := [], rooms := [] }

def dbRoomMade : DB :=
  { users := [], rooms := [⟨"general", none, [], [8], [9]⟩] }

theorem createRoom_key_immutable_witness :
    createRoom dbNoRoomsYet "General" none ([8], [9]) false false
      = (true, dbRoomMade) ∧
    (createRoom dbRoomMade "GENERAL" none ([10], [11]) false false
      = (false, dbRoomMade) ∧
     ∃ rec, findRoom dbRoomMade (lowerString "General") = some rec ∧
       rec.publicKey = [8] ∧ rec.privateKey = [9]) :=
  ⟨by decide,
   createRoom_key_immutable dbNoRoomsYet dbRoomMade "General" "GENERAL"
     none none ([8], [9]) ([10], [11]) false false false false (by decide)
     (by decide)⟩

/-! ### C6: no duplicate users -/

/-- C6: with a fresh username, `createUserProfile` succeeds and inserts a
record with the hashed password, empty `rooms` and `online = false`; a
second call for the same username returns false (never true) and leaves
the first record — in particular its password hash — unchanged. -/
theorem createUser_no_duplicates (db : DB) (u p c p2 c2 : String)
    (s s2 : Nat) (f2 : Bool) (habs : findUser db u = none) :
    createUserProfile db u p c s false false
      = (some true,
         { db with users := db.users ++
             [⟨u, none, hashPassword p s, c, [], false, none⟩] }) ∧
    findUser { db with users := db.users ++
        [⟨u, none, hashPassword p s, c, [], false, none⟩] } u
      = some ⟨u, none, hashPassword p s, c, [], false, none⟩ ∧
    createUserProfile
      { db with users := db.users ++
          [⟨u, none, hashPassword p s, c, [], false, none⟩] }
      u p2 c2 s2 false f2
      = (some false,
         { db with users := db.users ++
             [⟨u, none, hashPassword p s, c, [], false, none⟩] }) := by
  have hfind : findUser { db with users := db.users ++
      [⟨u, none, hashPassword p s, c, [], false, none⟩] } u
      = some ⟨u, none, hashPassword p s, c, [], false, none⟩ := by
    unfold findUser
    unfold findUser at habs
    rw [List.find?_append, habs]
    simp [List.find?]
  refine ⟨?_, hfind, ?_⟩
  · unfold createUserProfile
    rw [habs]
    simp
  · unfold createUserProfile
    rw [hfind]
    simp

/-- Witness for C6: creating `alice` twice from the empty store. -/
def dbNoUsers : DB := { users := [], rooms := [] }

theorem createUser_no_duplicates_witness :
    findUser dbNoUsers "alice" = none ∧
    (createUserProfile dbNoUsers "alice" "secret" "red" 7 false false
      = (some true,
         { dbNoUsers with users := dbNoUsers.users ++
             [⟨"alice", none, hashPassword "secret" 7, "red", [], false,
               none⟩] }) ∧
     findUser { dbNoUsers with users := dbNoUsers.users ++
         [⟨"alice", none, hashPassword "secret" 7, "red", [], false,
           none⟩] } "alice"
       = some ⟨"alice", none, hashPassword "secret" 7, "red", [], false,
               none⟩ ∧
     createUserProfile
       { dbNoUsers with users := dbNoUsers.users ++
           [⟨"alice", none, hashPassword "secret" 7, "red", [], false,
             none⟩] }
       "alice" "other" "blue" 8 false false
       = (some false,
          { dbNoUsers with users := dbNoUsers.users ++
              [⟨"alice", none, hashPassword "secret" 7, "red", [], false,
                none⟩] })) :=
  ⟨by decide,
   createUser_no_duplicates dbNoUsers "alice" "secret" "red" "other"
     "blue" 7 8 false (by decide)⟩

/-! ### C9: password verification -/

/-- C9: `compareUserProfile` is false when the user is absent (whatever the
fault flag); and immediately after a successful creation with password
`p0`, verifying password `p` returns exactly whether `p` equals `p0`
(true on match, false on mismatch). -/
theorem verifyPassword_matches_creation (db : DB) (u p0 c q p : String)
    (s : Nat) (f : Bool) (habs : findUser db u = none) :
    compareUserProfile db u q f = false ∧
    compareUserProfile (createUserProfile db u p0 c s false false).2 u p
      false = (p == p0) := by
  constructor
  · unfold compareUserProfile
    cases f
    · rw [habs]
      simp
    · simp
  · have hcreate : (createUserProfile db u p0 c s false false).2
        = { db with users := db.users ++
            [⟨u, none, hashPassword p0 s, c, [], false, none⟩] } := by
      unfold createUserProfile
      rw [habs]
      simp
    rw [hcreate]
    unfold compareUserProfile findUser
    unfold findUser at habs
    rw [List.find?_append, habs]
    simp [List.find?, checkPassword, hashPassword]

/-- Witness for C9: `ghost` is absent; after creating `alice` with
password `correct`, the wrong password is rejected. -/
def dbPw : DB := { users := [], rooms := [] }

theorem verifyPassword_matches_creation_witness :
    compareUserProfile
      (createUserProfile dbPw "alice" "correct" "red" 4 false false).2
      "alice" "wrong" false = false ∧
    (compareUserProfile dbPw "ghost" "anything" false = false ∧
     compareUserProfile
       (createUserProfile dbPw "ghost" "correct" "c" 4 false false).2
       "ghost" "wrong" false = ("wrong" == "correct")) :=
  ⟨by decide,
   verifyPassword_matches_creation dbPw "ghost" "correct" "c" "anything"
     "wrong" 4 false (by decide)⟩

/-! ### C8: observer union -/

/-- Membership in the viewer-accumulating fold of `getUserViews`. -/
theorem mem_viewers_foldl (db : DB) (rf : String → Bool) :
    ∀ (rooms acc : List String) (x : String),
      (x ∈ rooms.foldl (fun viewers roomname =>
          match getRoom db roomname (rf roomname) with
          | none => viewers
          | some room => room.members.foldl setAdd viewers) acc
      ↔ x ∈ acc ∨ ∃ rn ∈ rooms, ∃ room,
          getRoom db rn (rf rn) = some room ∧ x ∈ room.members)
  | [], acc, x => by simp
  | rn :: rooms, acc, x => by
    simp only [List.foldl_cons]
    cases h : getRoom db rn (rf rn) with
    | none =>
        refine Iff.trans (mem_viewers_foldl db rf rooms acc x) ?_
        simp only [List.mem_cons]
        constructor
        · rintro (hx | ⟨rn', hrn', room, hroom, hxm⟩)
          · exact Or.inl hx
          · exact Or.inr ⟨rn', Or.inr hrn', room, hroom, hxm⟩
        · rintro (hx | ⟨rn', (rfl | hrn'), room, hroom, hxm⟩)
          · exact Or.inl hx
          · rw [h] at hroom; exact absurd hroom (by simp)
          · exact Or.inr ⟨rn', hrn', room, hroom, hxm⟩
    | some room =>
        refine Iff.trans (mem_viewers_foldl db rf rooms
          (room.members.foldl setAdd acc) x) ?_
        rw [mem_foldl_setAdd]
        simp only [List.mem_cons]
        constructor
        · rintro ((hx | hxm) | ⟨rn', hrn', room', hroom', hxm'⟩)
          · exact Or.inl hx
          · exact Or.inr ⟨rn, Or.inl rfl, room, h, hxm⟩
          · exact Or.inr ⟨rn', Or.inr hrn', room', hroom', hxm'⟩
        · rintro (hx | ⟨rn', (rfl | hrn'), room', hroom', hxm'⟩)
          · exact Or.inl (Or.inl hx)
          · rw [h] at hroom'
            cases Option.some_injective _ hroom'
            exact Or.inl (Or.inr hxm')
          · exact Or.inr ⟨rn', hrn', room', hroom', hxm'⟩

/-- Counterexample input for C8: the user `a` exists. -/
def dbUserFault : DB :=
  { users := [⟨"a", none, hashPassword "p" 0, "c", [], false, none⟩],
    rooms := [] }

/-- C8 counterexample: `getUserViews` also returns null when the user
exists but the user-record read faults, refuting "returns null exactly
when the user does not exist". -/
theorem getUserViews_null_despite_existing_user :
    (findUser dbUserFault "a").isSome = true ∧
    getUserViews dbUserFault "a" true (fun _ => false) = none :=
  ⟨by decide, rfl⟩

/-- C8 amended: `getUserViews` returns null exactly when the user record
fails to load (the user is absent or that read faults); otherwise it
returns the union of the members sets of every room in the user's rooms
set whose load succeeds, rooms that fail to load being skipped. -/
theorem getUserViews_observer_union (db : DB) (u : String) (uf : Bool)
    (rf : String → Bool) :
    (getUserViews db u uf rf = none ↔ getUserSession db u uf = none) ∧
    ∀ s viewers, getUserSession db u uf = some s →
      getUserViews db u uf rf = some viewers →
      ∀ x, x ∈ viewers ↔ ∃ rn ∈ s.rooms, ∃ room,
        getRoom db rn (rf rn) = some room ∧ x ∈ room.members := by
  constructor
  · unfold getUserViews
    cases h : getUserSession db u uf <;> simp
  · intro s viewers hs hv x
    unfold getUserViews at hv
    rw [hs] at hv
    have hv' := Option.some_injective _ hv
    rw [← hv']
    rw [mem_viewers_foldl db rf s.rooms [] x]
    simp

/-- Witness input for the amended C8: user `A` in rooms `x` and `y`, with
members {A,B} and {A,C}; the observers of `A` are exactly {A,B,C}. -/
def dbViews : DB :=
  { users := [⟨"A", none, hashPassword "p" 0, "c", ["x", "y"], false,
               none⟩,
              ⟨"B", none, hashPassword "p" 0, "c", ["x"], false, none⟩,
              ⟨"C", none, hashPassword "p" 0, "c", ["y"], false, none⟩],
    rooms := [⟨"x", none, ["A", "B"], [1], [2]⟩,
              ⟨"y", none, ["A", "C"], [3], [4]⟩] }

def sessionA : UserSession :=
  ⟨"A", none, hashPassword "p" 0, "c", ["x", "y"], false, true, none⟩

theorem getUserViews_observer_union_witness :
    getUserViews dbViews "A" false (fun _ => false)
      = some ["A", "B", "C"] ∧
    ("B" ∈ ["A", "B", "C"] ↔ ∃ rn ∈ sessionA.rooms, ∃ room,
      getRoom dbViews rn ((fun _ => false) rn) = some room ∧
      "B" ∈ room.members) :=
  ⟨by decide,
   (getUserViews_observer_union dbViews "A" false (fun _ => false)).2
     sessionA ["A", "B", "C"] (by decide) (by decide) "B"⟩

/-! ### C5: idempotence of join and leave -/

theorem find?_map_pres {α : Type} (f : α → α) (p : α → Bool)
    (hf : ∀ x, p (f x) = p x) :
    ∀ l : List α, (l.map f).find? p = (l.find? p).map f
  | [] => rfl
  | x :: l => by
    simp only [List.map_cons]
    cases h : p x with
    | true =>
        rw [List.find?_cons_of_pos _ (by rw [hf x]; exact h),
            List.find?_cons_of_pos _ h]
        rfl
    | false =>
        rw [List.find?_cons_of_neg _ (by simp [hf x, h]),
            List.find?_cons_of_neg _ (by simp [h])]
        exact find?_map_pres f p hf l

theorem map_idem {α : Type} (f : α → α) (hf : ∀ x, f (f x) = f x)
    (l : List α) : (l.map f).map f = l.map f := by
  rw [List.map_map]
  exact List.map_congr_left (fun x _ => hf x)

/-- The row rewrite the users-table UPDATE of a membership transaction
applies to each row. -/
def userRoomsWrite (u : String) (R : List String) (x : UserRecord) :
    UserRecord :=
  if x.username == u then { x with rooms := R } else x

/-- The row rewrite the rooms-table UPDATE of a membership transaction
applies to each row (filtered on the raw room name). -/
def roomMembersWrite (r : String) (M : List String) (x : RoomRecord) :
    RoomRecord :=
  if x.name == r then { x with members := M } else x

theorem userRoomsWrite_username (u : String) (R : List String)
    (x : UserRecord) : (userRoomsWrite u R x).username = x.username := by
  unfold userRoomsWrite
  split <;> rfl

theorem roomMembersWrite_name (r : String) (M : List String)
    (x : RoomRecord) : (roomMembersWrite r M x).name = x.name := by
  unfold roomMembersWrite
  split <;> rfl

theorem userRoomsWrite_idem (u : String) (R : List String)
    (x : UserRecord) :
    userRoomsWrite u R (userRoomsWrite u R x) = userRoomsWrite u R x := by
  unfold userRoomsWrite
  cases h : (x.username == u) <;> simp [h]

theorem roomMembersWrite_idem (r : String) (M : List String)
    (x : RoomRecord) :
    roomMembersWrite r M (roomMembersWrite r M x) = roomMembersWrite r M x := by
  unfold roomMembersWrite
  cases h : (x.name == r) <;> simp [h]

theorem findUser_update (db : DB) (u n r : String) (R M : List String) :
    findUser (updateRoomMembers (updateUserRooms db u R) r M) n
      = (findUser db n).map (userRoomsWrite u R) :=
  find?_map_pres (userRoomsWrite u R) (fun x => x.username == n)
    (fun x => by simp only [userRoomsWrite_username]) db.users

theorem findRoom_update (db : DB) (u n r : String) (R M : List String) :
    findRoom (updateRoomMembers (updateUserRooms db u R) r M) n
      = (findRoom db n).map (roomMembersWrite r M) :=
  find?_map_pres (roomMembersWrite r M) (fun x => x.name == n)
    (fun x => by simp only [roomMembersWrite_name]) db.rooms

/-- Re-running the two UPDATE statements of a membership transaction with
the same values is a no-op on the database. -/
theorem update_write_idem (db : DB) (u r : String) (R M : List String) :
    updateRoomMembers (updateUserRooms
        (updateRoomMembers (updateUserRooms db u R) r M) u R) r M
      = updateRoomMembers (updateUserRooms db u R) r M := by
  unfold updateRoomMembers updateUserRooms
  simp only []
  congr 1
  · exact map_idem _ (userRoomsWrite_idem u R) db.users
  · exact map_idem _ (roomMembersWrite_idem r M) db.rooms

theorem getUserSession_of_find {db : DB} {u : String} {a : UserRecord}
    (hu : findUser db u = some a) :
    getUserSession db u false
      = some ⟨a.username, a.displayName, a.password, a.color,
              jsSetOfList a.rooms, a.online, !a.online, a.publicKey⟩ := by
  unfold getUserSession
  simp only [Bool.false_eq_true, if_false]
  rw [hu]

theorem getRoom_of_find {db : DB} {r : String} {b : RoomRecord}
    (hr : findRoom db (lowerString r) = some b) :
    getRoom db r false
      = some ⟨b.name, b.description, jsSetOfList b.members, b.publicKey,
              b.privateKey, armorKey b.publicKey⟩ := by
  unfold getRoom
  simp only [Bool.false_eq_true, if_false]
  rw [hr]

theorem addUserToRoom_eval {db : DB} {u r : String} {a : UserRecord}
    {b : RoomRecord}
    (hu : findUser db u = some a) (hr : findRoom db (lowerString r) = some b) :
    addUserToRoom db u r false false false
      = (true, updateRoomMembers
          (updateUserRooms db u (setAdd (jsSetOfList a.rooms) r))
          r (setAdd (jsSetOfList b.members) u)) := by
  unfold addUserToRoom
  rw [getUserSession_of_find hu, getRoom_of_find hr]
  rfl

theorem removeUserFromRoom_eval {db : DB} {u r : String} {a : UserRecord}
    {b : RoomRecord}
    (hu : findUser db u = some a) (hr : findRoom db (lowerString r) = some b) :
    removeUserFromRoom db u r false false false
      = (true, updateRoomMembers
          (updateUserRooms db u (setDelete (jsSetOfList a.rooms) r))
          r (setDelete (jsSetOfList b.members) u)) := by
  unfold removeUserFromRoom
  rw [getUserSession_of_find hu, getRoom_of_find hr]
  rfl

theorem addUserToRoom_state_idem (db : DB) (u r : String)
    (a : UserRecord) (b : RoomRecord)
    (hu : findUser db u = some a) (hr : findRoom db (lowerString r) = some b) :
    (addUserToRoom (addUserToRoom db u r false false false).2 u r
        false false false).2
      = (addUserToRoom db u r false false false).2 := by
  have hpa : (a.username == u) = true := by
    have hu' : List.find? (fun x => x.username == u) db.users = some a := hu
    exact @List.find?_some UserRecord (fun x => x.username == u) a db.users hu'
  rw [addUserToRoom_eval hu hr]
  have hu2 : findUser (updateRoomMembers
      (updateUserRooms db u (setAdd (jsSetOfList a.rooms) r))
      r (setAdd (jsSetOfList b.members) u)) u
      = some { a with rooms := setAdd (jsSetOfList a.rooms) r } := by
    rw [findUser_update, hu]
    show some (userRoomsWrite u _ a) = _
    unfold userRoomsWrite
    rw [hpa]
    simp
  have hr2 : findRoom (updateRoomMembers
      (updateUserRooms db u (setAdd (jsSetOfList a.rooms) r))
      r (setAdd (jsSetOfList b.members) u)) (lowerString r)
      = some (roomMembersWrite r (setAdd (jsSetOfList b.members) u) b) := by
    rw [findRoom_update, hr]
    rfl
  rw [addUserToRoom_eval hu2 hr2]
  simp only []
  have hR2 : setAdd (jsSetOfList (setAdd (jsSetOfList a.rooms) r)) r
      = setAdd (jsSetOfList a.rooms) r := by
    rw [jsSetOfList_eq_self (setAdd_nodup (jsSetOfList_nodup a.rooms))]
    exact setAdd_idem _ _
  have hM2 : setAdd (jsSetOfList
        (roomMembersWrite r (setAdd (jsSetOfList b.members) u) b).members) u
      = setAdd (jsSetOfList b.members) u := by
    unfold roomMembersWrite
    cases hbr : (b.name == r) with
    | true =>
        simp only [hbr, if_true]
        show setAdd (jsSetOfList (setAdd (jsSetOfList b.members) u)) u = _
        rw [jsSetOfList_eq_self (setAdd_nodup (jsSetOfList_nodup b.members))]
        exact setAdd_idem _ _
    | false =>
        simp only [hbr, Bool.false_eq_true, if_false]
  rw [hR2, hM2, update_write_idem]

theorem removeUserFromRoom_state_idem (db : DB) (u r : String)
    (a : UserRecord) (b : RoomRecord)
    (hu : findUser db u = some a) (hr : findRoom db (lowerString r) = some b) :
    (removeUserFromRoom (removeUserFromRoom db u r false false false).2 u r
        false false false).2
      = (removeUserFromRoom db u r false false false).2 := by
  have hpa : (a.username == u) = true := by
    have hu' : List.find? (fun x => x.username == u) db.users = some a := hu
    exact @List.find?_some UserRecord (fun x => x.username == u) a db.users hu'
  rw [removeUserFromRoom_eval hu hr]
  have hu2 : findUser (updateRoomMembers
      (updateUserRooms db u (setDelete (jsSetOfList a.rooms) r))
      r (setDelete (jsSetOfList b.members) u)) u
      = some { a with rooms := setDelete (jsSetOfList a.rooms) r } := by
    rw [findUser_update, hu]
    show some (userRoomsWrite u _ a) = _
    unfold userRoomsWrite
    rw [hpa]
    simp
  have hr2 : findRoom (updateRoomMembers
      (updateUserRooms db u (setDelete (jsSetOfList a.rooms) r))
      r (setDelete (jsSetOfList b.members) u)) (lowerString r)
      = some (roomMembersWrite r (setDelete (jsSetOfList b.members) u) b) := by
    rw [findRoom_update, hr]
    rfl
  rw [removeUserFromRoom_eval hu2 hr2]
  simp only []
  have hR2 : setDelete (jsSetOfList (setDelete (jsSetOfList a.rooms) r)) r
      = setDelete (jsSetOfList a.rooms) r := by
    rw [jsSetOfList_eq_self (setDelete_nodup (jsSetOfList_nodup a.rooms))]
    exact setDelete_idem (jsSetOfList_nodup a.rooms)
  have hM2 : setDelete (jsSetOfList
        (roomMembersWrite r (setDelete (jsSetOfList b.members) u) b).members) u
      = setDelete (jsSetOfList b.members) u := by
    unfold roomMembersWrite
    cases hbr : (b.name == r) with
    | true =>
        simp only [hbr, if_true]
        show setDelete (jsSetOfList (setDelete (jsSetOfList b.members) u)) u
          = _
        rw [jsSetOfList_eq_self (setDelete_nodup (jsSetOfList_nodup
          b.members))]
        exact setDelete_idem (jsSetOfList_nodup b.members)
    | false =>
        simp only [hbr, Bool.false_eq_true, if_false]
  rw [hR2, hM2, update_write_idem]

/-- C5: for an existing user and an existing room, running
`addUserToRoom(u, r)` twice (fault-free) leaves the same database as
running it once, and the same holds for `removeUserFromRoom`, including
when the membership edge does not exist. -/
theorem join_leave_idempotent (db : DB) (u r : String)
    (a : UserRecord) (b : RoomRecord)
    (hu : findUser db u = some a) (hr : findRoom db (lowerString r) = some b) :
    (addUserToRoom (addUserToRoom db u r false false false).2 u r
        false false false).2
      = (addUserToRoom db u r false false false).2 ∧
    (removeUserFromRoom (removeUserFromRoom db u r false false false).2 u r
        false false false).2
      = (removeUserFromRoom db u r false false false).2 :=
  ⟨addUserToRoom_state_idem db u r a b hu hr,
   removeUserFromRoom_state_idem db u r a b hu hr⟩

/-- Witness for C5: `dave` and `lobby`, with the edge present on both
sides. -/
def dbEdge : DB :=
  { users := [⟨"dave", none, hashPassword "d" 5, "teal", ["lobby"], false,
               none⟩],
    rooms := [⟨"lobby", none, ["dave"], [1], [2]⟩] }

theorem join_leave_idempotent_witness :
    findUser dbEdge "dave"
      = some ⟨"dave", none, hashPassword "d" 5, "teal", ["lobby"], false,
              none⟩ ∧
    ((addUserToRoom (addUserToRoom dbEdge "dave" "lobby" false false
          false).2 "dave" "lobby" false false false).2
        = (addUserToRoom dbEdge "dave" "lobby" false false false).2 ∧
     (removeUserFromRoom (removeUserFromRoom dbEdge "dave" "lobby" false
          false false).2 "dave" "lobby" false false false).2
        = (removeUserFromRoom dbEdge "dave" "lobby" false false false).2) :=
  ⟨by decide,
   join_leave_idempotent dbEdge "dave" "lobby"
     ⟨"dave", none, hashPassword "d" 5, "teal", ["lobby"], false, none⟩
     ⟨"lobby", none, ["dave"], [1], [2]⟩ (by decide) (by decide)⟩

end IrcChat
